import Mathlib

/-!
Shallow embedding of the memory-bank tool server (src/src/node-persist.d.ts,
class MemoryBankServer).  The durable node-persist mapping is modelled as an
association list `Storage` in enumeration order, holding at most one entry per
key in practice (node-persist keeps one file per key); `getItem` is first-match
lookup, `setItem` replaces in place or appends, `removeItem` filters the key
out.  JavaScript `Date.now()` is a single `now : Int` parameter per incoming
call; JSON serialization of results is abstracted to structured payloads in
`ToolOutput`.  JavaScript truthiness of a number is `≠ 0`, of an optional
string `some` and nonempty.
-/

/-- Error codes used by the server: `InvalidParams` (InvalidInput),
`InvalidRequest` (NotFound), `MethodNotFound` (UnknownOperation) and
`InternalError`, mirroring the McpError codes raised in the source. -/
inductive ErrorCode where
  | invalidParams
  | invalidRequest
  | methodNotFound
  | internalError
deriving DecidableEq, Repr

/-- McpError: a code plus a message, as thrown by the source. -/
structure McpError where
  code : ErrorCode
  message : String
deriving DecidableEq, Repr

/-- StoredValue from the source: `{ value, timestamp, expiry? }`. -/
structure StoredValue where
  value : String
  timestamp : Int
  expiry : Option Int
deriving DecidableEq, Repr

/-- The abstract durable mapping, in enumeration order. -/
abbrev Storage := List (String × StoredValue)

/-- MAX_KEY_LENGTH = 256. -/
def MAX_KEY_LENGTH : Nat := 256

/-- MAX_VALUE_LENGTH = 1024 * 1024. -/
def MAX_VALUE_LENGTH : Nat := 1024 * 1024

/-- A character matched by the class of KEY_PATTERN = `[a-zA-Z0-9-_:.]`. -/
def isKeyChar (c : Char) : Bool :=
  c.isAlpha || c.isDigit || c == '-' || c == '_' || c == ':' || c == '.'

/-- validateKey from the source: rejects the empty string (JS `!key` on a
string), length over MAX_KEY_LENGTH, and any character outside KEY_PATTERN
(the pattern `[a-zA-Z0-9-_:.]+` also rejects the empty string, already caught
by the first check).  The `typeof` check is vacuous in this typed embedding. -/
def validateKey (key : String) : Except McpError Unit :=
  if key = "" then
    .error ⟨.invalidParams, "Key must be a non-empty string"⟩
  else if key.length > MAX_KEY_LENGTH then
    .error ⟨.invalidParams, "Key length must not exceed 256 characters"⟩
  else if !(key.toList.all isKeyChar) then
    .error ⟨.invalidParams, "Key must contain only alphanumeric characters, hyphens, underscores, dots, and colons"⟩
  else
    .ok ()

/-- validateValue from the source: rejects length over MAX_VALUE_LENGTH; the
`typeof` check is vacuous in this typed embedding. -/
def validateValue (value : String) : Except McpError Unit :=
  if value.length > MAX_VALUE_LENGTH then
    .error ⟨.invalidParams, "Value length must not exceed 1048576 bytes"⟩
  else
    .ok ()

/-- validateNamespace from the source: an absent namespace is valid, a present
one is checked by validateKey. -/
def validateNamespace (namespc : Option String) : Except McpError Unit :=
  match namespc with
  | none => .ok ()
  | some n => validateKey n

/-- The storage-key composition `namespace ? namespace + ":" + key : key`;
a present but empty namespace is falsy in JS and composes to the bare key. -/
def storageKey (namespc : Option String) (key : String) : String :=
  match namespc with
  | some n => if n != "" then n ++ ":" ++ key else key
  | none => key

/-- storage.getItem on the association list: first matching entry. -/
def getItem (st : Storage) (k : String) : Option StoredValue :=
  match st with
  | [] => none
  | (k', v) :: rest => if k' = k then some v else getItem rest k

/-- storage.setItem on the association list: replace in place, else append. -/
def setItem (k : String) (v : StoredValue) : Storage → Storage
  | [] => [(k, v)]
  | (k', v') :: rest => if k' = k then (k, v) :: rest else (k', v') :: setItem k v rest

/-- storage.removeItem on the association list. -/
def removeItem (k : String) (st : Storage) : Storage :=
  st.filter (fun p => p.1 != k)

/-- The expiry test of the source, `data.expiry && now > data.expiry`: the
expiry field is set, nonzero (JS truthiness), and strictly before now.  The
same condition gates the sweep and the retrieve check. -/
def isExpired (d : StoredValue) (now : Int) : Bool :=
  match d.expiry with
  | some e => e != 0 && decide (e < now)
  | none => false

/-- cleanExpiredValues from the source: enumerate all keys and remove every
record whose expiry is set, nonzero and strictly passed. -/
def cleanExpiredValues (st : Storage) (now : Int) : Storage :=
  st.filter (fun p => !(isExpired p.2 now))

/-- The expiry assigned by the store case, `...(ttl && { expiry: Date.now() +
ttl * 1000 })`: set only when ttl is provided and truthy (nonzero). -/
def expiryOf (now : Int) (ttl : Option Int) : Option Int :=
  match ttl with
  | some t => if t != 0 then some (now + t * 1000) else none
  | none => none

/-- A parsed tool invocation, one constructor per case of the CallTool
switch; `unknown` is any other tool name (the default case). -/
inductive ToolRequest where
  | store (key value : String) (namespc : Option String) (ttl : Option Int)
  | retrieve (key : String) (namespc : Option String)
  | list (namespc : Option String) (includeMetadata : Bool)
  | delete (key : String) (namespc : Option String)
  | unknown (name : String)
deriving DecidableEq, Repr

/-- A successful tool result: acknowledgement text, a key listing, or a
metadata listing of (key, timestamp, expiry) entries, abstracting the JSON
text of the source. -/
inductive ToolOutput where
  | text (s : String)
  | keyList (ks : List String)
  | itemList (items : List (String × Int × Option Int))
deriving DecidableEq, Repr

/-- The store case (source lines 215-238): validate key, value, namespace in
that order, then write the record unconditionally. -/
def storeCase (st : Storage) (now : Int) (k v : String) (ns : Option String)
    (ttl : Option Int) : Except McpError (Storage × ToolOutput) :=
  match validateKey k with
  | .error e => .error e
  | .ok _ =>
    match validateValue v with
    | .error e => .error e
    | .ok _ =>
      match validateNamespace ns with
      | .error e => .error e
      | .ok _ =>
        let sk := storageKey ns k
        let record : StoredValue := ⟨v, now, expiryOf now ttl⟩
        .ok (setItem sk record st, .text ("Successfully stored value for key: " ++ k))

/-- The retrieve case (source lines 240-256): validate, read, and fail with
the NotFound condition when no record exists or the record's expiry is set,
nonzero and strictly passed. -/
def retrieveCase (st : Storage) (now : Int) (k : String) (ns : Option String) :
    Except McpError (Storage × ToolOutput) :=
  match validateKey k with
  | .error e => .error e
  | .ok _ =>
    match validateNamespace ns with
    | .error e => .error e
    | .ok _ =>
      let sk := storageKey ns k
      match getItem st sk with
      | none => .error ⟨.invalidRequest, "No value found for key: " ++ k⟩
      | some d =>
        if isExpired d now then
          .error ⟨.invalidRequest, "No value found for key: " ++ k⟩
        else
          .ok (st, .text d.value)

/-- String.startsWith of JavaScript, on the character lists of the strings. -/
def strStartsWith (s p : String) : Bool :=
  p.toList.isPrefixOf s.toList

/-- The list case (source lines 258-290): validate the namespace, enumerate
all keys, filter to the keys beginning with the string `namespace + ":"` when
a namespace is given (JS truthiness: a present empty namespace filters
nothing), and return either the keys or per-key metadata in the same order. -/
def listCase (st : Storage) (ns : Option String) (includeMetadata : Bool) :
    Except McpError (Storage × ToolOutput) :=
  match validateNamespace ns with
  | .error e => .error e
  | .ok _ =>
    let keys := st.map Prod.fst
    let filtered := match ns with
      | some n => if n != "" then keys.filter (fun s => strStartsWith s (n ++ ":")) else keys
      | none => keys
    if includeMetadata then
      .ok (st, .itemList (filtered.map (fun k =>
        match getItem st k with
        | some d => (k, d.timestamp, d.expiry)
        | none => (k, 0, none))))
    else
      .ok (st, .keyList filtered)

/-- The delete case (source lines 292-303): validate, then remove the storage
key unconditionally and acknowledge with the original key. -/
def deleteCase (st : Storage) (k : String) (ns : Option String) :
    Except McpError (Storage × ToolOutput) :=
  match validateKey k with
  | .error e => .error e
  | .ok _ =>
    match validateNamespace ns with
    | .error e => .error e
    | .ok _ =>
      .ok (removeItem (storageKey ns k) st, .text ("Successfully deleted key: " ++ k))

/-- The switch over tool names inside the try block; the default case throws
MethodNotFound. -/
def dispatch (st : Storage) (now : Int) : ToolRequest → Except McpError (Storage × ToolOutput)
  | .store k v ns ttl => storeCase st now k v ns ttl
  | .retrieve k ns => retrieveCase st now k ns
  | .list ns m => listCase st ns m
  | .delete k ns => deleteCase st k ns
  | .unknown n => .error ⟨.methodNotFound, "Unknown tool: " ++ n⟩

/-- The CallTool handler (source lines 207-314): the expiry sweep runs before
validation and dispatch; every error raised inside the try block is an
McpError in this pure model, so the catch re-throws it unchanged.  Returns
the storage state after the call together with the result. -/
def handleCall (st : Storage) (now : Int) (req : ToolRequest) :
    Storage × Except McpError ToolOutput :=
  let st1 := cleanExpiredValues st now
  match dispatch st1 now req with
  | .ok (st2, out) => (st2, .ok out)
  | .error e => (st1, .error e)

/-- An error value as thrown in JavaScript: either an McpError or any other
thrown value, carried here by its message string. -/
inductive JsError where
  | mcp (m : McpError)
  | other (s : String)
deriving DecidableEq, Repr

/-- Whether a surfaced error is a (typed) McpError. -/
def JsError.isWrapped : JsError → Bool
  | .mcp _ => true
  | .other _ => false

/-- The catch block of the handler (source lines 308-313): an McpError is
re-thrown as is, anything else is wrapped into InternalError carrying the
original message. -/
def wrapCaught : JsError → McpError
  | .mcp m => m
  | .other s => ⟨.internalError, s⟩

/-- The CallTool handler with fallible storage I/O (fault injection):
`sweepFault` is a failure thrown by a storage operation during
cleanExpiredValues, which runs before the try block (source lines 208-209)
and so propagates unwrapped; `opFault` is a failure thrown by a storage
operation inside the dispatched case, which the catch block wraps. -/
def handleCallF (st : Storage) (now : Int) (req : ToolRequest)
    (sweepFault : Option String) (opFault : Option String) :
    Storage × Except JsError ToolOutput :=
  match sweepFault with
  | some msg => (st, .error (.other msg))
  | none =>
    let st1 := cleanExpiredValues st now
    match opFault with
    | some msg => (st1, .error (.mcp (wrapCaught (.other msg))))
    | none =>
      match dispatch st1 now req with
      | .ok (st2, out) => (st2, .ok out)
      | .error e => (st1, .error (.mcp (wrapCaught (.mcp e))))

/-- The acceptance predicate of validateKey: nonempty, within the length
bound, and only characters of KEY_PATTERN. -/
def keyOk (k : String) : Prop :=
  k ≠ "" ∧ k.length ≤ MAX_KEY_LENGTH ∧ ∀ c ∈ k.toList, isKeyChar c

instance (k : String) : Decidable (keyOk k) := by
  unfold keyOk; infer_instance

/-- The acceptance predicate of validateValue. -/
def valueOk (v : String) : Prop :=
  v.length ≤ MAX_VALUE_LENGTH

instance (v : String) : Decidable (valueOk v) := by
  unfold valueOk; infer_instance

/-- The acceptance predicate of validateNamespace. -/
def nsOk : Option String → Prop
  | none => True
  | some n => keyOk n

instance (ns : Option String) : Decidable (nsOk ns) := by
  cases ns <;> (unfold nsOk; infer_instance)

/-- Which arguments of a request pass the validation the handler performs on
them; an unknown tool name validates nothing. -/
def requestInputsOk : ToolRequest → Prop
  | .store k v ns _ => keyOk k ∧ valueOk v ∧ nsOk ns
  | .retrieve k ns => keyOk k ∧ nsOk ns
  | .list ns _ => nsOk ns
  | .delete k ns => keyOk k ∧ nsOk ns
  | .unknown _ => True

instance (req : ToolRequest) : Decidable (requestInputsOk req) := by
  cases req <;> (unfold requestInputsOk; infer_instance)

/-- A value one character longer than MAX_VALUE_LENGTH, used to exercise the
value-size bound. -/
def bigValue : String := String.mk (List.replicate (MAX_VALUE_LENGTH + 1) 'a')

theorem bigValue_length : bigValue.length = MAX_VALUE_LENGTH + 1 := by
  show (List.replicate (MAX_VALUE_LENGTH + 1) 'a').length = MAX_VALUE_LENGTH + 1
  exact List.length_replicate _ _

theorem getItem_setItem_self (k : String) (v : StoredValue) (st : Storage) :
    getItem (setItem k v st) k = some v := by
  induction st with
  | nil => simp [setItem, getItem]
  | cons hd tl ih =>
    obtain ⟨k', v'⟩ := hd
    by_cases h : k' = k
    · simp [setItem, getItem, h]
    · simp [setItem, getItem, h, ih]

theorem getItem_filter_some (st : Storage) (k : String) (v : StoredValue)
    (p : String × StoredValue → Bool)
    (hget : getItem st k = some v) (hp : p (k, v) = true) :
    getItem (st.filter p) k = some v := by
  induction st with
  | nil => simp [getItem] at hget
  | cons hd tl ih =>
    obtain ⟨k', v'⟩ := hd
    by_cases h : k' = k
    · subst h
      simp [getItem] at hget
      subst hget
      simp [List.filter_cons, hp, getItem]
    · simp [getItem, h] at hget
      cases hpk : p (k', v') with
      | false => simp [List.filter_cons, hpk, ih hget]
      | true => simp [List.filter_cons, hpk, getItem, h, ih hget]

theorem getItem_filter_none (st : Storage) (k : String)
    (p : String × StoredValue → Bool) (hget : getItem st k = none) :
    getItem (st.filter p) k = none := by
  induction st with
  | nil => exact hget
  | cons hd tl ih =>
    obtain ⟨k', v'⟩ := hd
    by_cases h : k' = k
    · simp [getItem, h] at hget
    · simp [getItem, h] at hget
      cases hpk : p (k', v') with
      | false => simp [List.filter_cons, hpk, ih hget]
      | true => simp [List.filter_cons, hpk, getItem, h, ih hget]

theorem getItem_removeItem_self (k : String) (st : Storage) :
    getItem (removeItem k st) k = none := by
  unfold removeItem
  induction st with
  | nil => simp [getItem]
  | cons hd tl ih =>
    obtain ⟨k', v'⟩ := hd
    by_cases h : k' = k
    · simp [List.filter_cons, h, ih]
    · simp [List.filter_cons, h, getItem, ih]

theorem validateKey_ok_iff (k : String) : validateKey k = .ok () ↔ keyOk k := by
  unfold validateKey keyOk
  split_ifs with h1 h2 h3
  · simp [h1]
  · simp [h1, h2]
  · simp_all [List.all_eq_true]
  · simp_all [List.all_eq_true, Nat.not_lt]

theorem validateValue_ok_iff (v : String) : validateValue v = .ok () ↔ valueOk v := by
  unfold validateValue valueOk
  split_ifs with h1
  · simp [h1, Nat.not_le_of_lt h1]
  · simp [Nat.not_lt.mp h1]

theorem validateNamespace_ok_iff (ns : Option String) :
    validateNamespace ns = .ok () ↔ nsOk ns := by
  cases ns with
  | none => simp [validateNamespace, nsOk]
  | some n => simp [validateNamespace, nsOk, validateKey_ok_iff]

theorem validateKey_error_code (k : String) (e : McpError)
    (h : validateKey k = .error e) : e.code = .invalidParams := by
  unfold validateKey at h
  split_ifs at h <;> simp_all <;> simp [← h]

theorem validateValue_error_code (v : String) (e : McpError)
    (h : validateValue v = .error e) : e.code = .invalidParams := by
  unfold validateValue at h
  split_ifs at h <;> simp_all <;> simp [← h]

theorem validateNamespace_error_code (ns : Option String) (e : McpError)
    (h : validateNamespace ns = .error e) : e.code = .invalidParams := by
  cases ns with
  | none => simp [validateNamespace] at h
  | some n => exact validateKey_error_code n e h

theorem storeCase_ok (st : Storage) (now : Int) (k v : String) (ns : Option String)
    (ttl : Option Int) (hk : keyOk k) (hv : valueOk v) (hns : nsOk ns) :
    storeCase st now k v ns ttl =
      .ok (setItem (storageKey ns k) ⟨v, now, expiryOf now ttl⟩ st,
           .text ("Successfully stored value for key: " ++ k)) := by
  unfold storeCase
  rw [(validateKey_ok_iff k).mpr hk, (validateValue_ok_iff v).mpr hv,
      (validateNamespace_ok_iff ns).mpr hns]

theorem retrieveCase_hit (st : Storage) (now : Int) (k : String) (ns : Option String)
    (d : StoredValue) (hk : keyOk k) (hns : nsOk ns)
    (hget : getItem st (storageKey ns k) = some d) (hlive : isExpired d now = false) :
    retrieveCase st now k ns = .ok (st, .text d.value) := by
  unfold retrieveCase
  rw [(validateKey_ok_iff k).mpr hk, (validateNamespace_ok_iff ns).mpr hns]
  simp [hget, hlive]

theorem retrieveCase_miss (st : Storage) (now : Int) (k : String) (ns : Option String)
    (hk : keyOk k) (hns : nsOk ns) (hget : getItem st (storageKey ns k) = none) :
    retrieveCase st now k ns = .error ⟨.invalidRequest, "No value found for key: " ++ k⟩ := by
  unfold retrieveCase
  rw [(validateKey_ok_iff k).mpr hk, (validateNamespace_ok_iff ns).mpr hns]
  simp [hget]

theorem retrieveCase_expired (st : Storage) (now : Int) (k : String) (ns : Option String)
    (d : StoredValue) (hk : keyOk k) (hns : nsOk ns)
    (hget : getItem st (storageKey ns k) = some d) (hexp : isExpired d now = true) :
    retrieveCase st now k ns = .error ⟨.invalidRequest, "No value found for key: " ++ k⟩ := by
  unfold retrieveCase
  rw [(validateKey_ok_iff k).mpr hk, (validateNamespace_ok_iff ns).mpr hns]
  simp [hget, hexp]

theorem deleteCase_ok (st : Storage) (k : String) (ns : Option String)
    (hk : keyOk k) (hns : nsOk ns) :
    deleteCase st k ns =
      .ok (removeItem (storageKey ns k) st, .text ("Successfully deleted key: " ++ k)) := by
  unfold deleteCase
  rw [(validateKey_ok_iff k).mpr hk, (validateNamespace_ok_iff ns).mpr hns]

theorem isExpired_eq_true_iff (d : StoredValue) (now : Int) :
    isExpired d now = true ↔ ∃ e, d.expiry = some e ∧ e ≠ 0 ∧ e < now := by
  cases hd : d.expiry with
  | none => simp [isExpired, hd]
  | some e => simp [isExpired, hd]

theorem handleCall_store_ok (st : Storage) (now : Int) (k v : String)
    (ns : Option String) (ttl : Option Int)
    (hk : keyOk k) (hv : valueOk v) (hns : nsOk ns) :
    handleCall st now (.store k v ns ttl) =
      (setItem (storageKey ns k) ⟨v, now, expiryOf now ttl⟩ (cleanExpiredValues st now),
       .ok (.text ("Successfully stored value for key: " ++ k))) := by
  simp only [handleCall, dispatch]
  rw [storeCase_ok _ _ _ _ _ _ hk hv hns]

theorem handleCall_retrieve_hit (st : Storage) (now : Int) (k : String)
    (ns : Option String) (d : StoredValue) (hk : keyOk k) (hns : nsOk ns)
    (hget : getItem (cleanExpiredValues st now) (storageKey ns k) = some d)
    (hlive : isExpired d now = false) :
    handleCall st now (.retrieve k ns) =
      (cleanExpiredValues st now, .ok (.text d.value)) := by
  simp only [handleCall, dispatch]
  rw [retrieveCase_hit _ _ _ _ _ hk hns hget hlive]

/-- C1: storing a valid key and value (optionally namespaced) with no TTL and
then retrieving the same key and namespace on the resulting state succeeds and
returns exactly the stored value, at any later call time. -/
theorem c1_store_then_retrieve_roundtrip (st : Storage) (now now' : Int)
    (k v : String) (ns : Option String)
    (hk : keyOk k) (hv : valueOk v) (hns : nsOk ns) :
    (handleCall st now (.store k v ns none)).2 =
      .ok (.text ("Successfully stored value for key: " ++ k)) ∧
    (handleCall (handleCall st now (.store k v ns none)).1 now' (.retrieve k ns)).2 =
      .ok (.text v) := by
  have hstore := handleCall_store_ok st now k v ns none hk hv hns
  have hget2 : getItem ((handleCall st now (.store k v ns none)).1) (storageKey ns k) =
      some ⟨v, now, none⟩ := by
    rw [hstore]; exact getItem_setItem_self _ _ _
  have hget3 : getItem
      (cleanExpiredValues ((handleCall st now (.store k v ns none)).1) now')
      (storageKey ns k) = some ⟨v, now, none⟩ :=
    getItem_filter_some _ _ _ _ hget2 rfl
  have hret := handleCall_retrieve_hit ((handleCall st now (.store k v ns none)).1)
      now' k ns ⟨v, now, none⟩ hk hns hget3 rfl
  exact ⟨by rw [hstore], by rw [hret]⟩

/-- C1 witness: the round trip at a concrete valid input. -/
theorem c1_witness :
    keyOk "a" ∧ valueOk "1" ∧ nsOk (some "proj") ∧
    ((handleCall [] 0 (.store "a" "1" (some "proj") none)).2 =
        .ok (.text ("Successfully stored value for key: " ++ "a")) ∧
      (handleCall (handleCall [] 0 (.store "a" "1" (some "proj") none)).1 7
          (.retrieve "a" (some "proj"))).2 = .ok (.text "1")) :=
  ⟨by decide, by decide, by decide,
    c1_store_then_retrieve_roundtrip [] 0 7 "a" "1" (some "proj")
      (by decide) (by decide) (by decide)⟩

/-- C2 counterexample: a record whose expiresAt equals now (so expiresAt ≤ now
holds) is still returned by retrieve, because the code tests `now > expiry`
strictly; the claim requires NotFound here. -/
theorem c2_counterexample :
    (handleCall [("a", ⟨"v", 0, some 5⟩)] 5 (.retrieve "a" none)).2 =
      .ok (.text "v") := rfl

/-- C2 (amended): a stored record whose expiresAt is set, nonzero, and
strictly earlier than now is logically deleted: retrieve on its key fails with
the NotFound error even though the record is still physically present in the
state handed to the retrieve case (not yet swept). -/
theorem c2_expired_record_is_notfound (st : Storage) (now : Int)
    (k : String) (ns : Option String) (d : StoredValue) (e : Int)
    (hk : keyOk k) (hns : nsOk ns)
    (hget : getItem st (storageKey ns k) = some d)
    (he : d.expiry = some e) (hnz : e ≠ 0) (hlt : e < now) :
    retrieveCase st now k ns =
      .error ⟨.invalidRequest, "No value found for key: " ++ k⟩ := by
  apply retrieveCase_expired st now k ns d hk hns hget
  simp [isExpired, he, hnz, hlt]

/-- C2 witness: the amended statement at a concrete expired record. -/
theorem c2_witness :
    keyOk "a" ∧ nsOk none ∧
    getItem [("a", ⟨"v", 0, some 1⟩)] (storageKey none "a") = some ⟨"v", 0, some 1⟩ ∧
    (StoredValue.mk "v" 0 (some 1)).expiry = some 1 ∧ (1 : Int) ≠ 0 ∧ (1 : Int) < 2 ∧
    retrieveCase [("a", ⟨"v", 0, some 1⟩)] 2 "a" none =
      .error ⟨.invalidRequest, "No value found for key: " ++ "a"⟩ :=
  ⟨by decide, trivial, rfl, rfl, by decide, by decide,
    c2_expired_record_is_notfound [("a", ⟨"v", 0, some 1⟩)] 2 "a" none
      ⟨"v", 0, some 1⟩ 1 (by decide) trivial rfl rfl (by decide) (by decide)⟩

/-- C10: the per-call sweep removes a record exactly when its expiry field is
set, nonzero, and strictly earlier than the current time; every other entry
survives the sweep with its key, value and metadata unchanged. -/
theorem c10_sweep_removes_iff (st : Storage) (now : Int) (k : String)
    (d : StoredValue) :
    (k, d) ∈ cleanExpiredValues st now ↔
      (k, d) ∈ st ∧ ¬(∃ e, d.expiry = some e ∧ e ≠ 0 ∧ e < now) := by
  unfold cleanExpiredValues
  rw [List.mem_filter, ← isExpired_eq_true_iff]
  simp

/-- C8: validateKey fails, always with the InvalidInput code, exactly when the
key is empty, longer than 256 characters, or contains a character outside
[A-Za-z0-9-_:.]; a present namespace is validated by the very same function
and an absent namespace always passes.  (The non-string case of the claim is
vacuous in this typed embedding.) -/
theorem c8_validateKey_spec :
    (∀ k : String, validateKey k ≠ .ok () ↔
        (k = "" ∨ MAX_KEY_LENGTH < k.length ∨ ∃ c ∈ k.toList, ¬ isKeyChar c)) ∧
    (∀ k e, validateKey k = .error e → e.code = .invalidParams) ∧
    validateNamespace none = .ok () ∧
    (∀ n, validateNamespace (some n) = validateKey n) := by
  refine ⟨?_, validateKey_error_code, rfl, fun n => rfl⟩
  intro k
  constructor
  · intro hne
    by_contra hcon
    push_neg at hcon
    obtain ⟨h1, h2, h3⟩ := hcon
    exact hne ((validateKey_ok_iff k).mpr ⟨h1, Nat.le_of_not_lt (by simpa using h2), by simpa using h3⟩)
  · intro hor hok
    obtain ⟨h1, h2, h3⟩ := (validateKey_ok_iff k).mp hok
    rcases hor with h | h | ⟨c, hc, hbad⟩
    · exact h1 h
    · exact absurd h2 (Nat.not_le.mpr h)
    · exact hbad (h3 c hc)

/-- C8 witness: the failure characterization applied at the empty key. -/
theorem c8_witness :
    (validateKey "" ≠ .ok () ↔
      ("" = "" ∨ MAX_KEY_LENGTH < "".length ∨ ∃ c ∈ "".toList, ¬ isKeyChar c)) ∧
    (validateKey "" = .error ⟨.invalidParams, "Key must be a non-empty string"⟩ →
      (McpError.mk .invalidParams "Key must be a non-empty string").code = .invalidParams) :=
  ⟨c8_validateKey_spec.1 "",
    c8_validateKey_spec.2.1 "" ⟨.invalidParams, "Key must be a non-empty string"⟩⟩

/-- C5: with valid inputs, store writes at the composed storage key a record
whose createdAt timestamp is now, and whose expiry is now + ttl*1000 exactly
when ttl is provided and truthy (nonzero), and absent when ttl is 0 or
absent. -/
theorem c5_store_record_fields (st : Storage) (now : Int) (k v : String)
    (ns : Option String) (ttl : Option Int)
    (hk : keyOk k) (hv : valueOk v) (hns : nsOk ns) :
    getItem ((handleCall st now (.store k v ns ttl)).1) (storageKey ns k) =
      some ⟨v, now,
        match ttl with
        | some t => if t ≠ 0 then some (now + t * 1000) else none
        | none => none⟩ := by
  rw [handleCall_store_ok st now k v ns ttl hk hv hns]
  have h := getItem_setItem_self (storageKey ns k) ⟨v, now, expiryOf now ttl⟩
    (cleanExpiredValues st now)
  rw [h]
  congr 1
  unfold expiryOf
  cases ttl with
  | none => rfl
  | some t =>
    by_cases ht : t = 0
    · simp [ht]
    · simp [ht, bne_iff_ne]

/-- C5 witness: the record written by the concrete scenario of the spec,
store with ttl = 0, has createdAt now and no expiry. -/
theorem c5_witness :
    keyOk "a" ∧ valueOk "1" ∧ nsOk (some "proj") ∧
    getItem ((handleCall [] 0 (.store "a" "1" (some "proj") (some 0))).1)
        (storageKey (some "proj") "a") = some ⟨"1", 0, none⟩ :=
  ⟨by decide, by decide, by decide, by
    have h := c5_store_record_fields [] 0 "a" "1" (some "proj") (some 0)
      (by decide) (by decide) (by decide)
    simpa using h⟩

theorem listCase_keys_some (st : Storage) (n : String) (hn : keyOk n) :
    listCase st (some n) false =
      .ok (st, .keyList ((st.map Prod.fst).filter
        (fun s => strStartsWith s (n ++ ":")))) := by
  unfold listCase
  rw [(validateNamespace_ok_iff (some n)).mpr hn]
  have hne : (n != "") = true := by
    simpa [bne_iff_ne] using hn.1
  simp [hne]

theorem listCase_keys_none (st : Storage) :
    listCase st none false = .ok (st, .keyList (st.map Prod.fst)) := by
  unfold listCase
  simp [validateNamespace]

/-- C6: on the state the list case operates on (the post-sweep state), list
with a valid namespace returns exactly the composed storage keys beginning
with "namespace:", in the enumeration order of the mapping; list with no
namespace returns all storage keys, including those of other namespaces. -/
theorem c6_list_returns_filtered_keys (st : Storage) (now : Int) :
    (∀ n, keyOk n →
      handleCall st now (.list (some n) false) =
        (cleanExpiredValues st now,
         .ok (.keyList (((cleanExpiredValues st now).map Prod.fst).filter
            (fun s => strStartsWith s (n ++ ":")))))) ∧
    handleCall st now (.list none false) =
      (cleanExpiredValues st now,
       .ok (.keyList ((cleanExpiredValues st now).map Prod.fst))) := by
  constructor
  · intro n hn
    simp only [handleCall, dispatch]
    rw [listCase_keys_some _ _ hn]
  · simp only [handleCall, dispatch]
    rw [listCase_keys_none]

/-- C6 witness: listing namespace "proj" over a state holding one "proj" key
and one bare key returns only the "proj"-composed key. -/
theorem c6_witness :
    keyOk "proj" ∧
    handleCall [("proj:a", ⟨"1", 0, none⟩), ("b", ⟨"2", 0, none⟩)] 3
        (.list (some "proj") false) =
      (cleanExpiredValues [("proj:a", ⟨"1", 0, none⟩), ("b", ⟨"2", 0, none⟩)] 3,
       .ok (.keyList
        (((cleanExpiredValues [("proj:a", ⟨"1", 0, none⟩), ("b", ⟨"2", 0, none⟩)] 3).map
            Prod.fst).filter (fun s => strStartsWith s ("proj" ++ ":"))))) :=
  ⟨by decide,
    (c6_list_returns_filtered_keys [("proj:a", ⟨"1", 0, none⟩), ("b", ⟨"2", 0, none⟩)] 3).1
      "proj" (by decide)⟩

theorem handleCall_retrieve_miss (st : Storage) (now : Int) (k : String)
    (ns : Option String) (hk : keyOk k) (hns : nsOk ns)
    (hget : getItem (cleanExpiredValues st now) (storageKey ns k) = none) :
    handleCall st now (.retrieve k ns) =
      (cleanExpiredValues st now,
       .error ⟨.invalidRequest, "No value found for key: " ++ k⟩) := by
  simp only [handleCall, dispatch]
  rw [retrieveCase_miss _ _ _ _ hk hns hget]

theorem handleCall_delete_ok (st : Storage) (now : Int) (k : String)
    (ns : Option String) (hk : keyOk k) (hns : nsOk ns) :
    handleCall st now (.delete k ns) =
      (removeItem (storageKey ns k) (cleanExpiredValues st now),
       .ok (.text ("Successfully deleted key: " ++ k))) := by
  simp only [handleCall, dispatch]
  rw [deleteCase_ok _ _ _ hk hns]

/-- C7: delete with a valid key and namespace succeeds, acknowledging the
original key, on every state, also when no record exists for the computed
storage key; and a subsequent retrieve of the same key and namespace fails
with the NotFound error. -/
theorem c7_delete_then_retrieve_notfound (st : Storage) (now now' : Int)
    (k : String) (ns : Option String) (hk : keyOk k) (hns : nsOk ns) :
    (handleCall st now (.delete k ns)).2 =
      .ok (.text ("Successfully deleted key: " ++ k)) ∧
    (handleCall (handleCall st now (.delete k ns)).1 now' (.retrieve k ns)).2 =
      .error ⟨.invalidRequest, "No value found for key: " ++ k⟩ := by
  have hdel := handleCall_delete_ok st now k ns hk hns
  have hnone : getItem ((handleCall st now (.delete k ns)).1) (storageKey ns k) = none := by
    rw [hdel]; exact getItem_removeItem_self _ _
  have hnone2 : getItem (cleanExpiredValues ((handleCall st now (.delete k ns)).1) now')
      (storageKey ns k) = none :=
    getItem_filter_none _ _ _ hnone
  have hret := handleCall_retrieve_miss ((handleCall st now (.delete k ns)).1) now' k ns
    hk hns hnone2
  exact ⟨by rw [hdel], by rw [hret]⟩

/-- C7 witness: deleting a key that was never stored succeeds and the
subsequent retrieve fails with NotFound. -/
theorem c7_witness :
    keyOk "a" ∧ nsOk (some "proj") ∧
    ((handleCall [] 0 (.delete "a" (some "proj"))).2 =
        .ok (.text ("Successfully deleted key: " ++ "a")) ∧
      (handleCall (handleCall [] 0 (.delete "a" (some "proj"))).1 1
          (.retrieve "a" (some "proj"))).2 =
        .error ⟨.invalidRequest, "No value found for key: " ++ "a"⟩) :=
  ⟨by decide, by decide,
    c7_delete_then_retrieve_notfound [] 0 1 "a" (some "proj") (by decide) (by decide)⟩

theorem storeCase_invalid (st : Storage) (now : Int) (k v : String)
    (ns : Option String) (ttl : Option Int)
    (h : ¬(keyOk k ∧ valueOk v ∧ nsOk ns)) :
    ∃ m, storeCase st now k v ns ttl = .error ⟨.invalidParams, m⟩ := by
  unfold storeCase
  cases hvk : validateKey k with
  | error e =>
    obtain ⟨c, msg⟩ := e
    have hc : c = .invalidParams := validateKey_error_code k ⟨c, msg⟩ hvk
    subst hc
    exact ⟨msg, rfl⟩
  | ok u =>
    cases u
    cases hvv : validateValue v with
    | error e =>
      obtain ⟨c, msg⟩ := e
      have hc : c = .invalidParams := validateValue_error_code v ⟨c, msg⟩ hvv
      subst hc
      exact ⟨msg, rfl⟩
    | ok u =>
      cases u
      cases hvn : validateNamespace ns with
      | error e =>
        obtain ⟨c, msg⟩ := e
        have hc : c = .invalidParams := validateNamespace_error_code ns ⟨c, msg⟩ hvn
        subst hc
        exact ⟨msg, rfl⟩
      | ok u =>
        exact absurd ⟨(validateKey_ok_iff k).mp hvk, (validateValue_ok_iff v).mp hvv,
          (validateNamespace_ok_iff ns).mp hvn⟩ h

theorem retrieveCase_invalid (st : Storage) (now : Int) (k : String)
    (ns : Option String) (h : ¬(keyOk k ∧ nsOk ns)) :
    ∃ m, retrieveCase st now k ns = .error ⟨.invalidParams, m⟩ := by
  unfold retrieveCase
  cases hvk : validateKey k with
  | error e =>
    obtain ⟨c, msg⟩ := e
    have hc : c = .invalidParams := validateKey_error_code k ⟨c, msg⟩ hvk
    subst hc
    exact ⟨msg, rfl⟩
  | ok u =>
    cases u
    cases hvn : validateNamespace ns with
    | error e =>
      obtain ⟨c, msg⟩ := e
      have hc : c = .invalidParams := validateNamespace_error_code ns ⟨c, msg⟩ hvn
      subst hc
      exact ⟨msg, rfl⟩
    | ok u =>
      exact absurd ⟨(validateKey_ok_iff k).mp hvk, (validateNamespace_ok_iff ns).mp hvn⟩ h

theorem listCase_invalid (st : Storage) (ns : Option String)
    (meta : Bool) (h : ¬ nsOk ns) :
    ∃ m, listCase st ns meta = .error ⟨.invalidParams, m⟩ := by
  unfold listCase
  cases hvn : validateNamespace ns with
  | error e =>
    obtain ⟨c, msg⟩ := e
    have hc : c = .invalidParams := validateNamespace_error_code ns ⟨c, msg⟩ hvn
    subst hc
    exact ⟨msg, rfl⟩
  | ok u =>
    exact absurd ((validateNamespace_ok_iff ns).mp hvn) h

theorem deleteCase_invalid (st : Storage) (k : String)
    (ns : Option String) (h : ¬(keyOk k ∧ nsOk ns)) :
    ∃ m, deleteCase st k ns = .error ⟨.invalidParams, m⟩ := by
  unfold deleteCase
  cases hvk : validateKey k with
  | error e =>
    obtain ⟨c, msg⟩ := e
    have hc : c = .invalidParams := validateKey_error_code k ⟨c, msg⟩ hvk
    subst hc
    exact ⟨msg, rfl⟩
  | ok u =>
    cases u
    cases hvn : validateNamespace ns with
    | error e =>
      obtain ⟨c, msg⟩ := e
      have hc : c = .invalidParams := validateNamespace_error_code ns ⟨c, msg⟩ hvn
      subst hc
      exact ⟨msg, rfl⟩
    | ok u =>
      exact absurd ⟨(validateKey_ok_iff k).mp hvk, (validateNamespace_ok_iff ns).mp hvn⟩ h

/-- C3 counterexample: a store invocation whose key fails validation still
changes the storage state, because the expiry sweep runs before validation:
here the expired record under "x" is removed by an invocation that fails with
InvalidInput. -/
theorem c3_counterexample :
    (handleCall [("x", ⟨"v", 0, some 5⟩)] 10 (.store "" "v" none none)).1 = [] ∧
    ([("x", (⟨"v", 0, some 5⟩ : StoredValue))] : Storage) ≠ [] ∧
    (handleCall [("x", ⟨"v", 0, some 5⟩)] 10 (.store "" "v" none none)).2 =
      .error ⟨.invalidParams, "Key must be a non-empty string"⟩ :=
  ⟨rfl, by simp, rfl⟩

/-- C3 (amended): when an operation's inputs fail validation the invocation
fails with InvalidInput and the operation itself performs no write or delete:
the resulting state is exactly the state left by the pre-validation expiry
sweep, which may itself have removed expired records. -/
theorem c3_invalid_input_only_sweep_mutates (st : Storage) (now : Int)
    (req : ToolRequest) (h : ¬ requestInputsOk req) :
    (handleCall st now req).1 = cleanExpiredValues st now ∧
    ∃ m, (handleCall st now req).2 = .error ⟨.invalidParams, m⟩ := by
  cases req with
  | store k v ns ttl =>
    obtain ⟨m, hm⟩ := storeCase_invalid (cleanExpiredValues st now) now k v ns ttl h
    simp only [handleCall, dispatch]
    rw [hm]
    exact ⟨rfl, m, rfl⟩
  | retrieve k ns =>
    obtain ⟨m, hm⟩ := retrieveCase_invalid (cleanExpiredValues st now) now k ns h
    simp only [handleCall, dispatch]
    rw [hm]
    exact ⟨rfl, m, rfl⟩
  | list ns meta =>
    obtain ⟨m, hm⟩ := listCase_invalid (cleanExpiredValues st now) ns meta h
    simp only [handleCall, dispatch]
    rw [hm]
    exact ⟨rfl, m, rfl⟩
  | delete k ns =>
    obtain ⟨m, hm⟩ := deleteCase_invalid (cleanExpiredValues st now) k ns h
    simp only [handleCall, dispatch]
    rw [hm]
    exact ⟨rfl, m, rfl⟩
  | unknown n => exact absurd trivial h

/-- C3 witness: the amended statement applied to a retrieve with an invalid
key over a concrete state. -/
theorem c3_witness :
    ¬ requestInputsOk (.retrieve "bad key" none) ∧
    ((handleCall [("x", ⟨"v", 0, some 5⟩)] 10 (.retrieve "bad key" none)).1 =
        cleanExpiredValues [("x", ⟨"v", 0, some 5⟩)] 10 ∧
      ∃ m, (handleCall [("x", ⟨"v", 0, some 5⟩)] 10 (.retrieve "bad key" none)).2 =
        .error ⟨.invalidParams, m⟩) :=
  ⟨by decide,
    c3_invalid_input_only_sweep_mutates [("x", ⟨"v", 0, some 5⟩)] 10
      (.retrieve "bad key" none) (by decide)⟩

/-- C4: a store whose value is longer than MAX_VALUE_LENGTH fails with
InvalidInput and writes no record (the resulting state is exactly the swept
state), while any value of at most that length, including the empty string,
passes validateValue. -/
theorem c4_value_size_bound (st : Storage) (now : Int) (k v : String)
    (ns : Option String) (ttl : Option Int) :
    (MAX_VALUE_LENGTH < v.length →
      (handleCall st now (.store k v ns ttl)).1 = cleanExpiredValues st now ∧
      ∃ m, (handleCall st now (.store k v ns ttl)).2 = .error ⟨.invalidParams, m⟩) ∧
    (v.length ≤ MAX_VALUE_LENGTH → validateValue v = .ok ()) := by
  constructor
  · intro hbig
    have hinv : ¬(keyOk k ∧ valueOk v ∧ nsOk ns) := by
      rintro ⟨-, hv, -⟩
      exact absurd hv (Nat.not_le.mpr hbig)
    obtain ⟨m, hm⟩ := storeCase_invalid (cleanExpiredValues st now) now k v ns ttl hinv
    simp only [handleCall, dispatch]
    rw [hm]
    exact ⟨rfl, m, rfl⟩
  · intro hle
    unfold validateValue
    rw [if_neg (Nat.not_lt.mpr hle)]

/-- C4 witness: the bound exercised at a value one character over the limit,
and at the empty value. -/
theorem c4_witness :
    ((handleCall [] 0 (.store "k" bigValue none none)).1 = cleanExpiredValues [] 0 ∧
      ∃ m, (handleCall [] 0 (.store "k" bigValue none none)).2 =
        .error ⟨.invalidParams, m⟩) ∧
    validateValue "" = .ok () :=
  ⟨(c4_value_size_bound [] 0 "k" bigValue none none).1
      (by rw [bigValue_length]; exact Nat.lt_succ_self _),
    (c4_value_size_bound [] 0 "k" "" none none).2 (by decide)⟩

/-- C9 counterexample: a storage failure raised during the expiry sweep, which
runs before the try block, is surfaced raw and unwrapped: the surfaced error
is not an McpError of any kind, contradicting the claim that every non-kind
error is wrapped into InternalError. -/
theorem c9_counterexample :
    (handleCallF [] 0 (.retrieve "a" none) (some "EIO: i/o error") none).2 =
      .error (.other "EIO: i/o error") ∧
    (JsError.other "EIO: i/o error").isWrapped = false :=
  ⟨rfl, rfl⟩

/-- C9 (amended): an error raised inside the dispatched operation (the try
block) that is not an McpError is wrapped into InternalError preserving its
message as context, and an McpError passes through the catch unchanged; an
error raised by the pre-dispatch expiry sweep, which runs outside the try
block, is surfaced unwrapped. -/
theorem c9_error_wrapping (st : Storage) (now : Int) (req : ToolRequest)
    (msg : String) (m : McpError) :
    (handleCallF st now req none (some msg)).2 =
      .error (.mcp ⟨.internalError, msg⟩) ∧
    wrapCaught (.mcp m) = m ∧
    (handleCallF st now req (some msg) none).2 = .error (.other msg) :=
  ⟨rfl, rfl, rfl⟩
